import Mathlib

/-!
Verification development for the noise-filter audio pipeline.

Samples are modelled as exact rationals (the source computes with JS
numbers; all the constants and operations involved are exactly
representable questions about branch structure and exact arithmetic
identities, which the rational model captures).  Byte sequences are
modelled as lists of naturals below 256.

The definitions below are shallow embeddings of:
  - processFloat32Array        (lib/audio: adaptive-from-intensity engine)
  - processAudioWithRNNoise    (AudioRecorder: explicit four-parameter engine)
  - float32ArrayToWavBlob      (WAV PCM16 encoder, identical in both copies)
  - decodeAndResampleToFloat32 (only its output-length computation is local
                                code; the rendering itself is a browser API)
  - reprocessBlob              (decode, process, encode)

A second embedding of the adaptive engine over an IEEE-style extended
value type (finite, NaN, infinities, no rounding) is used where the
behaviour on non-finite samples is at issue.
-/

namespace NoiseFilter

/-- The canonical sample rate, `SAMPLE_RATE = 48000` in lib/audio. -/
def SAMPLE_RATE : ℕ := 48000

/-! ## Adaptive-from-intensity engine (processFloat32Array) -/

/-- `avgAmplitude` as computed by `processFloat32Array`: the absolute
values are summed over the buffer and divided by the length.
(For the empty buffer the rational model yields `0/0 = 0`.) -/
def avgAmplitude (input : List ℚ) : ℚ :=
  ((input.map fun x => |x|).sum) / input.length

/-- `maxAmplitude` as computed by `processFloat32Array`; it feeds only a
log line in the source and does not influence the output. -/
def maxAmplitude (input : List ℚ) : ℚ :=
  (input.map fun x => |x|).foldl max 0

/-- `voiceThreshold = avgAmplitude * (1.5 - intensity * 0.5)`. -/
def voiceThresholdOf (input : List ℚ) (intensity : ℚ) : ℚ :=
  avgAmplitude input * (1.5 - intensity * 0.5)

/-- `noiseThreshold = avgAmplitude * (0.3 - intensity * 0.2)`. -/
def noiseThresholdOf (input : List ℚ) (intensity : ℚ) : ℚ :=
  avgAmplitude input * (0.3 - intensity * 0.2)

/-- Per-sample policy of `processFloat32Array`: branch on the amplitude
against the two adaptive thresholds. -/
def adaptiveSample (vt nt intensity sample : ℚ) : ℚ :=
  let amplitude := |sample|
  if vt < amplitude then sample * 1.1
  else if nt < amplitude then sample * (1 - (0.5 + intensity * 0.4))
  else sample * (1 - (0.8 + intensity * 0.19))

/-- Shallow embedding of `processFloat32Array(inputData, intensity)`. -/
def processFloat32Array (input : List ℚ) (intensity : ℚ) : List ℚ :=
  let vt := voiceThresholdOf input intensity
  let nt := noiseThresholdOf input intensity
  input.map fun sample => adaptiveSample vt nt intensity sample

/-! ## Explicit four-parameter engine (processAudioWithRNNoise) -/

/-- The four explicit-mode knobs. -/
structure RNNParams where
  noiseThreshold : ℚ
  reductionStrength : ℚ
  highPassStrength : ℚ
  preservationThreshold : ℚ
deriving DecidableEq

/-- Step 1 of the loop body: the noise gate with smooth transition. -/
def gateRNN (p : RNNParams) (sample : ℚ) : ℚ :=
  let amplitude := |sample|
  if amplitude < p.noiseThreshold then
    sample * p.reductionStrength
  else if amplitude < p.preservationThreshold then
    let transitionRange := p.preservationThreshold - p.noiseThreshold
    let position := (amplitude - p.noiseThreshold) / transitionRange
    let factor := p.reductionStrength + position * (1 - p.reductionStrength)
    sample * factor
  else sample

/-- Step 2 of the loop body: the high-pass step.  In the source it runs
only when `i > 0` (here: `prev = some q`, the raw previous input sample)
and `highPassStrength > 0`. -/
def hpRNN (p : RNNParams) (prev : Option ℚ) (sample : ℚ) : ℚ :=
  match prev with
  | none => sample
  | some q =>
      if 0 < p.highPassStrength then
        sample * (1 - p.highPassStrength) - q * p.highPassStrength
      else sample

/-- Step 3 of the loop body: the soft limiter.  `amplitude` is the
amplitude of the RAW input sample (computed at the top of the loop body),
while the sign is taken from the current working sample. -/
def limitRNN (p : RNNParams) (amplitude sample : ℚ) : ℚ :=
  if p.preservationThreshold < amplitude then
    if 0.8 < amplitude then
      let sign : ℚ := if sample < 0 then -1 else 1
      let compressedAmp := 0.8 + (amplitude - 0.8) * 0.5
      sign * compressedAmp
    else sample
  else sample

/-- One iteration of the `processAudioWithRNNoise` loop: gate, then
high-pass, then limiter, the limiter keyed on the raw input amplitude. -/
def bodyRNN (p : RNNParams) (prev : Option ℚ) (x : ℚ) : ℚ :=
  limitRNN p |x| (hpRNN p prev (gateRNN p x))

/-- The loop of `processAudioWithRNNoise`, threading the raw previous
input sample. -/
def processRNNGo (p : RNNParams) : Option ℚ → List ℚ → List ℚ
  | _, [] => []
  | prev, x :: xs => bodyRNN p prev x :: processRNNGo p (some x) xs

/-- Shallow embedding of `processAudioWithRNNoise(inputData)` with the
four knobs gathered in `p`. -/
def processAudioWithRNNoise (p : RNNParams) (input : List ℚ) : List ℚ :=
  processRNNGo p none input

/-- The raw previous input sample seen at index `i` of the loop. -/
def prevAt (input : List ℚ) (i : ℕ) : Option ℚ :=
  if i = 0 then none else some (input.getD (i - 1) 0)

/-- The working sample after gate and high-pass (before the limiter) at
index `i`. -/
def preAt (p : RNNParams) (input : List ℚ) (i : ℕ) : ℚ :=
  hpRNN p (prevAt input i) (gateRNN p (input.getD i 0))

/-! ## WAV PCM16 encoder (float32ArrayToWavBlob) -/

/-- Little-endian bytes of a 32-bit value, as written by
`DataView.setUint32(..., true)`. -/
def u32le (n : ℕ) : List ℕ :=
  [n % 256, n / 256 % 256, n / 256 ^ 2 % 256, n / 256 ^ 3 % 256]

/-- Little-endian bytes of a 16-bit value, as written by
`DataView.setUint16(..., true)`. -/
def u16le (n : ℕ) : List ℕ :=
  [n % 256, n / 256 % 256]

/-- `Math.max(-1, Math.min(1, x))`. -/
def clampQ (x : ℚ) : ℚ := max (-1) (min 1 x)

/-- The quantized sample value: clamp, scale asymmetrically
(`sample < 0 ? sample * 0x8000 : sample * 0x7FFF`), then the truncation
toward zero performed by `DataView.setInt16` on a non-integral number. -/
def toInt16 (x : ℚ) : ℤ :=
  let c := clampQ x
  if c < 0 then ⌈c * 32768⌉ else ⌊c * 32767⌋

/-- Twos-complement little-endian byte pair of a 16-bit signed value,
as stored by `DataView.setInt16(..., true)`. -/
def int16bytes (v : ℤ) : List ℕ :=
  [(v % 65536).toNat % 256, (v % 65536).toNat / 256]

/-- The data section: each sample quantized and stored little-endian. -/
def dataBytes (audioData : List ℚ) : List ℕ :=
  (audioData.map fun s => int16bytes (toInt16 s)).flatten

/-- The 44 header bytes written before the sample data. -/
def wavHeader (sampleCount sampleRate : ℕ) : List ℕ :=
  let numChannels := 1
  let bytesPerSample := 2
  let blockAlign := numChannels * bytesPerSample
  let byteRate := sampleRate * blockAlign
  let dataSize := sampleCount * bytesPerSample
  let fileSize := 36 + dataSize
  [82, 73, 70, 70] ++ u32le fileSize ++ [87, 65, 86, 69]
    ++ [102, 109, 116, 32] ++ u32le 16 ++ u16le 1 ++ u16le numChannels
    ++ u32le sampleRate ++ u32le byteRate ++ u16le blockAlign ++ u16le 16
    ++ [100, 97, 116, 97] ++ u32le dataSize

/-- Shallow embedding of `float32ArrayToWavBlob(audioData, sampleRate)`:
the header writes followed by the quantized samples, in write order. -/
def float32ArrayToWavBlob (audioData : List ℚ) (sampleRate : ℕ) : List ℕ :=
  wavHeader audioData.length sampleRate ++ dataBytes audioData

/-! ## Decode and resample (decodeAndResampleToFloat32) -/

/-- The output length of `decodeAndResampleToFloat32`: the decoded
buffer is returned as-is at the canonical rate, otherwise an
`OfflineAudioContext` of length
`Math.ceil(audioBuffer.length * (SAMPLE_RATE / audioBuffer.sampleRate))`
is constructed and rendered, and the rendered channel has exactly that
length by the `OfflineAudioContext` contract. -/
def decodeAndResampleLength (originalLength nativeRate : ℕ) : ℕ :=
  if nativeRate = SAMPLE_RATE then originalLength
  else (⌈(originalLength : ℚ) * ((SAMPLE_RATE : ℚ) / (nativeRate : ℚ))⌉).toNat

/-! ## Reprocess (reprocessBlob) -/

/-- Shallow embedding of `reprocessBlob(originalBlob, intensity)` as a
function of the decoded original sample data: process with the adaptive
engine at `intensity`, then encode at `SAMPLE_RATE`. -/
def reprocessBlob (decodedOriginal : List ℚ) (intensity : ℚ) : List ℕ :=
  float32ArrayToWavBlob (processFloat32Array decodedOriginal intensity) SAMPLE_RATE

/-! ## IEEE-style extended value model of the adaptive engine

Used to settle what the engine does with non-finite input samples.
Arithmetic on finite values is exact (the rounding of individual float
operations is irrelevant to NaN propagation, which is what is at
issue); NaN and the infinities follow the IEEE rules that JS numbers
obey.  Rationals have no negative zero, so the sign of a zero product
is not modelled; no claim here depends on it. -/

inductive JsNum where
  | fin : ℚ → JsNum
  | nan : JsNum
  | inf : JsNum
  | ninf : JsNum
deriving DecidableEq

/-- `Math.abs` on a JS number. -/
def jabs : JsNum → JsNum
  | .fin q => .fin |q|
  | .nan => .nan
  | .inf => .inf
  | .ninf => .inf

/-- Addition of JS numbers. -/
def jadd : JsNum → JsNum → JsNum
  | .nan, _ => .nan
  | _, .nan => .nan
  | .inf, .ninf => .nan
  | .ninf, .inf => .nan
  | .inf, _ => .inf
  | _, .inf => .inf
  | .ninf, _ => .ninf
  | _, .ninf => .ninf
  | .fin a, .fin b => .fin (a + b)

/-- Multiplication of JS numbers. -/
def jmul : JsNum → JsNum → JsNum
  | .nan, _ => .nan
  | _, .nan => .nan
  | .fin a, .fin b => .fin (a * b)
  | .inf, .fin b => if b = 0 then .nan else if 0 < b then .inf else .ninf
  | .fin a, .inf => if a = 0 then .nan else if 0 < a then .inf else .ninf
  | .ninf, .fin b => if b = 0 then .nan else if 0 < b then .ninf else .inf
  | .fin a, .ninf => if a = 0 then .nan else if 0 < a then .ninf else .inf
  | .inf, .inf => .inf
  | .ninf, .ninf => .inf
  | .inf, .ninf => .ninf
  | .ninf, .inf => .ninf

/-- Division of a JS number by a (nonnegative integer) length, as in
`avgAmplitude /= inputData.length`. -/
def jdivNat : JsNum → ℕ → JsNum
  | .nan, _ => .nan
  | .inf, _ => .inf
  | .ninf, _ => .ninf
  | .fin a, n =>
      if n = 0 then (if a = 0 then .nan else if 0 < a then .inf else .ninf)
      else .fin (a / n)

/-- Strict greater-than on JS numbers; false whenever either side is NaN. -/
def jgt : JsNum → JsNum → Bool
  | .nan, _ => false
  | _, .nan => false
  | .fin a, .fin b => decide (b < a)
  | .inf, .inf => false
  | .inf, _ => true
  | _, .inf => false
  | .fin _, .ninf => true
  | .ninf, _ => false

/-- The adaptive engine over the extended value model, mirroring
`processFloat32Array` statement by statement (the intensity parameter is
a finite number). -/
def processFloat32ArrayJs (input : List JsNum) (intensity : ℚ) : List JsNum :=
  let avg := jdivNat (input.foldl (fun acc x => jadd acc (jabs x)) (.fin 0)) input.length
  let voiceThreshold := jmul avg (.fin (1.5 - intensity * 0.5))
  let noiseThreshold := jmul avg (.fin (0.3 - intensity * 0.2))
  input.map fun sample =>
    let amplitude := jabs sample
    if jgt amplitude voiceThreshold then jmul sample (.fin 1.1)
    else if jgt amplitude noiseThreshold then
      jmul sample (.fin (1 - (0.5 + intensity * 0.4)))
    else jmul sample (.fin (1 - (0.8 + intensity * 0.19)))

/-! ## Helper lemmas -/

theorem processRNNGo_getD (p : RNNParams) (input : List ℚ) :
    ∀ (prev : Option ℚ) (i : ℕ), i < input.length →
      (processRNNGo p prev input).getD i 0 =
        bodyRNN p (if i = 0 then prev else some (input.getD (i - 1) 0)) (input.getD i 0) := by
  induction input with
  | nil => intro prev i h; simp at h
  | cons x xs ih =>
    intro prev i h
    cases i with
    | zero => simp [processRNNGo]
    | succ j =>
      have hj : j < xs.length := by simpa using h
      simp only [processRNNGo, List.getD_cons_succ]
      rw [ih (some x) j hj]
      cases j with
      | zero => simp
      | succ k => simp

theorem processAudioWithRNNoise_getD (p : RNNParams) (input : List ℚ) (i : ℕ)
    (h : i < input.length) :
    (processAudioWithRNNoise p input).getD i 0 =
      bodyRNN p (prevAt input i) (input.getD i 0) := by
  unfold processAudioWithRNNoise prevAt
  exact processRNNGo_getD p input none i h

theorem processFloat32Array_getD (input : List ℚ) (c : ℚ) (i : ℕ) (h : i < input.length) :
    (processFloat32Array input c).getD i 0 =
      adaptiveSample (voiceThresholdOf input c) (noiseThresholdOf input c) c
        (input.getD i 0) := by
  unfold processFloat32Array
  simp [List.getD_eq_getElem?_getD, List.getElem?_map, List.getElem?_eq_getElem h]

theorem processRNNGo_length (p : RNNParams) (input : List ℚ) :
    ∀ prev : Option ℚ, (processRNNGo p prev input).length = input.length := by
  induction input with
  | nil => intro prev; rfl
  | cons x xs ih => intro prev; simp [processRNNGo, ih]

theorem adaptiveSample_zero (vt nt c : ℚ) : adaptiveSample vt nt c 0 = 0 := by
  simp [adaptiveSample]

theorem gateRNN_zero (p : RNNParams) : gateRNN p 0 = 0 := by
  simp [gateRNN]

theorem bodyRNN_zero (p : RNNParams) (prev : Option ℚ)
    (hprev : prev = none ∨ prev = some 0) : bodyRNN p prev 0 = 0 := by
  have hh : hpRNN p prev (gateRNN p 0) = 0 := by
    rw [gateRNN_zero]
    rcases hprev with h | h <;> subst h <;> simp [hpRNN]
  unfold bodyRNN
  rw [hh]
  unfold limitRNN
  simp only [abs_zero]
  split
  · split
    · next h2 => norm_num at h2
    · rfl
  · rfl

theorem processRNNGo_zeros (p : RNNParams) :
    ∀ (n : ℕ) (prev : Option ℚ), prev = none ∨ prev = some 0 →
      processRNNGo p prev (List.replicate n 0) = List.replicate n 0 := by
  intro n
  induction n with
  | zero => intro prev _; rfl
  | succ m ih =>
    intro prev hprev
    simp only [List.replicate_succ, processRNNGo]
    rw [bodyRNN_zero p prev hprev, ih (some 0) (Or.inr rfl)]

theorem u32le_length (n : ℕ) : (u32le n).length = 4 := rfl

theorem u16le_length (n : ℕ) : (u16le n).length = 2 := rfl

theorem int16bytes_length (v : ℤ) : (int16bytes v).length = 2 := rfl

theorem dataBytes_length (xs : List ℚ) : (dataBytes xs).length = 2 * xs.length := by
  unfold dataBytes
  induction xs with
  | nil => rfl
  | cons x xs ih =>
    simp only [List.map_cons, List.flatten_cons, List.length_append, int16bytes_length,
      List.length_cons, ih]
    omega

theorem wavHeader_length (n sr : ℕ) : (wavHeader n sr).length = 44 := by
  simp [wavHeader, u32le_length, u16le_length]

theorem float32ArrayToWavBlob_length (xs : List ℚ) (sr : ℕ) :
    (float32ArrayToWavBlob xs sr).length = 44 + 2 * xs.length := by
  simp [float32ArrayToWavBlob, wavHeader_length, dataBytes_length]

theorem avgAmplitude_nonneg (input : List ℚ) : 0 ≤ avgAmplitude input := by
  unfold avgAmplitude
  apply div_nonneg
  · apply List.sum_nonneg
    intro x hx
    simp only [List.mem_map] at hx
    obtain ⟨y, _, rfl⟩ := hx
    exact abs_nonneg y
  · positivity

/-! ## Claims -/

/-- C7: for every choice of parameters in either mode (any intensity in
adaptive mode; any noiseThreshold, reductionStrength, highPassStrength
and preservationThreshold in explicit mode), processing an all-zero
input buffer yields an all-zero output buffer of the same length. -/
theorem C7_silence_preserved :
    (∀ (intensity : ℚ) (n : ℕ),
        processFloat32Array (List.replicate n 0) intensity = List.replicate n 0)
    ∧ (∀ (p : RNNParams) (n : ℕ),
        processAudioWithRNNoise p (List.replicate n 0) = List.replicate n 0) := by
  constructor
  · intro c n
    simp only [processFloat32Array, List.map_replicate, adaptiveSample_zero]
  · intro p n
    exact processRNNGo_zeros p n none (Or.inl rfl)

/-- C9: reprocessing is deterministic — running reprocess on the same
stored original audio with identical intensity parameters yields
byte-identical processed WAV containers both times.  The embedded
pipeline (adaptive engine followed by the WAV encoder) is a pure
function of the stored original samples and of the intensity, so equal
inputs give equal byte sequences. -/
theorem C9_reprocess_deterministic :
    ∀ (orig₁ orig₂ : List ℚ) (c₁ c₂ : ℚ), orig₁ = orig₂ → c₁ = c₂ →
      reprocessBlob orig₁ c₁ = reprocessBlob orig₂ c₂ := by
  intro _ _ _ _ h₁ h₂
  rw [h₁, h₂]

/-- Witness for C9 at a concrete stored original and intensity. -/
theorem C9_witness :
    reprocessBlob [0.5, -0.25] 0.5 = reprocessBlob [0.5, -0.25] 0.5 :=
  C9_reprocess_deterministic [0.5, -0.25] [0.5, -0.25] 0.5 0.5 rfl rfl

/-- C8: when the decoded native rate differs from the canonical
48000 Hz, normalization produces exactly
ceil(originalLength * 48000 / nativeRate) samples; in particular 100
samples at 44100 Hz resample to exactly 109 samples. -/
theorem C8_resample_length :
    (∀ (len rate : ℕ), rate ≠ SAMPLE_RATE →
        decodeAndResampleLength len rate
          = (⌈((len * 48000 : ℕ) : ℚ) / (rate : ℚ)⌉).toNat)
    ∧ decodeAndResampleLength 100 44100 = 109 := by
  constructor
  · intro len rate h
    unfold decodeAndResampleLength
    rw [if_neg h]
    unfold SAMPLE_RATE
    congr 2
    push_cast
    ring
  · unfold decodeAndResampleLength
    rw [if_neg (by decide)]
    norm_num [SAMPLE_RATE]
    rw [show ⌈(16000 : ℚ) / 147⌉ = (109 : ℤ) from by
      rw [Int.ceil_eq_iff]; constructor <;> norm_num]
    rfl

/-- Witness for C8 at the concrete rate 44100. -/
theorem C8_witness :
    44100 ≠ SAMPLE_RATE
    ∧ decodeAndResampleLength 100 44100
        = (⌈((100 * 48000 : ℕ) : ℚ) / (44100 : ℚ)⌉).toNat :=
  ⟨by decide, C8_resample_length.1 100 44100 (by decide)⟩

/-- C6: for every buffer of n samples the WAV encoder produces exactly
44 + 2n bytes, laid out as the RIFF tag, the little-endian u32
fileSize = 36 + dataSize, the WAVE tag, the fmt subchunk (size 16,
audioFormat 1, numChannels 1, the sample rate, byteRate = sampleRate*2,
blockAlign 2, bitsPerSample 16), then the data tag with
dataSize = n * 2 followed by the dataSize sample bytes; a 48000-sample
buffer encodes to exactly 96044 bytes. -/
theorem C6_wav_layout :
    (∀ (xs : List ℚ) (sr : ℕ),
      (float32ArrayToWavBlob xs sr).length = 44 + 2 * xs.length
      ∧ float32ArrayToWavBlob xs sr =
          [82, 73, 70, 70] ++ u32le (36 + xs.length * 2) ++ [87, 65, 86, 69]
            ++ [102, 109, 116, 32] ++ u32le 16 ++ u16le 1 ++ u16le 1
            ++ u32le sr ++ u32le (sr * 2) ++ u16le 2 ++ u16le 16
            ++ [100, 97, 116, 97] ++ u32le (xs.length * 2) ++ dataBytes xs)
    ∧ (float32ArrayToWavBlob (List.replicate 48000 (0 : ℚ)) 48000).length = 96044 := by
  refine ⟨fun xs sr => ⟨float32ArrayToWavBlob_length xs sr, ?_⟩, ?_⟩
  · unfold float32ArrayToWavBlob wavHeader
    rw [List.append_assoc]
  · rw [float32ArrayToWavBlob_length, List.length_replicate]

theorem noiseThreshold_le_voiceThreshold (input : List ℚ) (c : ℚ) (hc : c ≤ 0.9) :
    noiseThresholdOf input c ≤ voiceThresholdOf input c := by
  unfold voiceThresholdOf noiseThresholdOf
  apply mul_le_mul_of_nonneg_left ?_ (avgAmplitude_nonneg input)
  linarith

/-- C1: in adaptive mode (intensity in its documented range [0.1, 0.9]),
avgAmplitude is the mean absolute sample value, the two thresholds are
avgAmplitude * (1.5 - intensity*0.5) and avgAmplitude * (0.3 - intensity*0.2),
and each sample of amplitude a is multiplied by 1.1 when a > voiceThreshold,
by 1 - (0.5 + intensity*0.4) when noiseThreshold < a <= voiceThreshold, and by
1 - (0.8 + intensity*0.19) when a <= noiseThreshold; on the concrete buffer
[0.2, 0.05, 0.01, 0.14] with intensity 0.5 the thresholds are 0.125 and 0.02
and the samples 0.2, 0.05, 0.01 are multiplied by 1.1, 0.30 and 0.105. -/
theorem C1_adaptive_engine :
    (∀ (input : List ℚ) (c : ℚ), 0.1 ≤ c → c ≤ 0.9 →
      avgAmplitude input = (input.map fun x => |x|).sum / input.length
      ∧ voiceThresholdOf input c = avgAmplitude input * (1.5 - c * 0.5)
      ∧ noiseThresholdOf input c = avgAmplitude input * (0.3 - c * 0.2)
      ∧ ∀ i : ℕ, i < input.length →
          (voiceThresholdOf input c < |input.getD i 0| →
            (processFloat32Array input c).getD i 0 = input.getD i 0 * 1.1)
          ∧ (noiseThresholdOf input c < |input.getD i 0|
              ∧ |input.getD i 0| ≤ voiceThresholdOf input c →
            (processFloat32Array input c).getD i 0
              = input.getD i 0 * (1 - (0.5 + c * 0.4)))
          ∧ (|input.getD i 0| ≤ noiseThresholdOf input c →
            (processFloat32Array input c).getD i 0
              = input.getD i 0 * (1 - (0.8 + c * 0.19))))
    ∧ (avgAmplitude [0.2, 0.05, 0.01, 0.14] = 0.1
      ∧ voiceThresholdOf [0.2, 0.05, 0.01, 0.14] 0.5 = 0.125
      ∧ noiseThresholdOf [0.2, 0.05, 0.01, 0.14] 0.5 = 0.02
      ∧ processFloat32Array [0.2, 0.05, 0.01, 0.14] 0.5
          = [0.2 * 1.1, 0.05 * 0.30, 0.01 * 0.105, 0.14 * 1.1]) := by
  constructor
  · intro input c _ hc9
    refine ⟨rfl, rfl, rfl, ?_⟩
    intro i hi
    rw [processFloat32Array_getD input c i hi]
    simp only [adaptiveSample]
    refine ⟨?_, ?_, ?_⟩
    · intro hv
      rw [if_pos hv]
    · rintro ⟨hn, hv⟩
      rw [if_neg (not_lt.mpr hv), if_pos hn]
    · intro hn
      rw [if_neg (not_lt.mpr (hn.trans (noiseThreshold_le_voiceThreshold input c hc9))),
        if_neg (not_lt.mpr hn)]
  · refine ⟨?_, ?_, ?_, ?_⟩ <;>
      norm_num [processFloat32Array, adaptiveSample, voiceThresholdOf, noiseThresholdOf,
        avgAmplitude, abs_of_nonneg]

/-- Witness for C1: the concrete buffer from the spec at intensity 0.5,
index 0 (amplitude 0.2 above the voice threshold). -/
theorem C1_witness :
    (0.1 : ℚ) ≤ 0.5 ∧ (0.5 : ℚ) ≤ 0.9 ∧ 0 < ([0.2, 0.05, 0.01, 0.14] : List ℚ).length
    ∧ (processFloat32Array [0.2, 0.05, 0.01, 0.14] 0.5).getD 0 0
        = ([0.2, 0.05, 0.01, 0.14] : List ℚ).getD 0 0 * 1.1 :=
  ⟨by norm_num, by norm_num, by decide,
    ((C1_adaptive_engine.1 [0.2, 0.05, 0.01, 0.14] 0.5 (by norm_num)
      (by norm_num)).2.2.2 0 (by decide)).1
      (by norm_num [voiceThresholdOf, avgAmplitude, abs_of_nonneg])⟩

/-- C5 counterexample: with the in-range parameters noiseThreshold = 0.02,
reductionStrength = 0.2, highPassStrength = 0, preservationThreshold = 0.015,
the sample 0.016 has amplitude at least preservationThreshold, yet the gate
(first branch: amplitude < noiseThreshold) multiplies it by reductionStrength
instead of leaving it unmodified. -/
theorem C5_counterexample :
    (⟨0.02, 0.2, 0, 0.015⟩ : RNNParams).preservationThreshold ≤ |(0.016 : ℚ)|
    ∧ processAudioWithRNNoise ⟨0.02, 0.2, 0, 0.015⟩ [0.016] = [0.0032]
    ∧ (0.0032 : ℚ) ≠ 0.016 := by
  norm_num [processAudioWithRNNoise, processRNNGo, bodyRNN, gateRNN, hpRNN, limitRNN,
    abs_of_nonneg]

/-- C5 amended: in explicit mode with 0 <= highPassStrength (its documented
range) and noiseThreshold <= preservationThreshold, the gate multiplies a
sample of amplitude a by reductionStrength when a < noiseThreshold, by the
factor interpolated linearly from reductionStrength at a = noiseThreshold to
1 at a = preservationThreshold when noiseThreshold <= a < preservationThreshold,
and leaves it unchanged when a >= preservationThreshold; the working value
before the limiter is gated(input[i]) * (1 - highPassStrength)
- input[i-1] * highPassStrength for i > 0, the gated value at i = 0, and the
output is the limiter applied to that working value. -/
theorem C5_amended_gate_highpass :
    ∀ p : RNNParams, 0 ≤ p.highPassStrength →
      p.noiseThreshold ≤ p.preservationThreshold →
      (∀ s : ℚ,
        (|s| < p.noiseThreshold → gateRNN p s = s * p.reductionStrength)
        ∧ (p.noiseThreshold ≤ |s| → |s| < p.preservationThreshold →
            gateRNN p s = s * (p.reductionStrength +
              (|s| - p.noiseThreshold) / (p.preservationThreshold - p.noiseThreshold)
                * (1 - p.reductionStrength)))
        ∧ (p.preservationThreshold ≤ |s| → gateRNN p s = s))
      ∧ (∀ (input : List ℚ) (i : ℕ), 0 < i → i < input.length →
          preAt p input i = gateRNN p (input.getD i 0) * (1 - p.highPassStrength)
            - input.getD (i - 1) 0 * p.highPassStrength)
      ∧ (∀ input : List ℚ, preAt p input 0 = gateRNN p (input.getD 0 0))
      ∧ (∀ (input : List ℚ) (i : ℕ), i < input.length →
          (processAudioWithRNNoise p input).getD i 0
            = limitRNN p |input.getD i 0| (preAt p input i)) := by
  intro p hp hnp
  refine ⟨?_, ?_, ?_, ?_⟩
  · intro s
    refine ⟨?_, ?_, ?_⟩
    · intro h₁
      simp only [gateRNN]
      rw [if_pos h₁]
    · intro h₁ h₂
      simp only [gateRNN]
      rw [if_neg (not_lt.mpr h₁), if_pos h₂]
    · intro h₁
      simp only [gateRNN]
      rw [if_neg (not_lt.mpr (hnp.trans h₁)), if_neg (not_lt.mpr h₁)]
  · intro input i hi hlen
    unfold preAt prevAt
    rw [if_neg (Nat.pos_iff_ne_zero.mp hi)]
    simp only [hpRNN]
    rcases lt_or_eq_of_le hp with h0 | h0
    · rw [if_pos h0]
    · have hz : p.highPassStrength = 0 := h0.symm
      rw [hz]
      norm_num
  · intro input
    unfold preAt prevAt
    rw [if_pos rfl]
    simp only [hpRNN]
  · intro input i hlen
    rw [processAudioWithRNNoise_getD p input i hlen]
    rfl

/-- Witness for the amended C5 at the Balanced preset and a quiet sample. -/
theorem C5_witness :
    (0 : ℚ) ≤ 0.02 ∧ (0.005 : ℚ) ≤ 0.015
    ∧ gateRNN ⟨0.005, 0.3, 0.02, 0.015⟩ 0.001 = 0.001 * 0.3 :=
  ⟨by norm_num, by norm_num,
    ((C5_amended_gate_highpass ⟨0.005, 0.3, 0.02, 0.015⟩ (by norm_num)
      (by norm_num)).1 0.001).1 (by norm_num [abs_of_nonneg])⟩

/-- C2: in WAV encoding every sample is clamped to [-1, 1], quantized
asymmetrically (negative values scaled by 32768, non-negative values by
32767, with the truncation toward zero that setInt16 performs) and stored
as a signed little-endian 16-bit integer in the data section; encoding
the buffer [1, -1] yields the 16-bit values 32767 and -32768 exactly. -/
theorem C2_wav_quantization :
    (∀ (xs : List ℚ) (sr : ℕ),
        (float32ArrayToWavBlob xs sr).drop 44
          = (xs.map fun s => int16bytes (toInt16 s)).flatten)
    ∧ (∀ x : ℚ,
        clampQ x = max (-1) (min 1 x)
        ∧ (clampQ x < 0 → toInt16 x = ⌈clampQ x * 32768⌉)
        ∧ (0 ≤ clampQ x → toInt16 x = ⌊clampQ x * 32767⌋))
    ∧ toInt16 1 = 32767 ∧ toInt16 (-1) = -32768
    ∧ float32ArrayToWavBlob [1, -1] 48000
        = wavHeader 2 48000 ++ (int16bytes 32767 ++ int16bytes (-32768))
    ∧ int16bytes 32767 = [255, 127] ∧ int16bytes (-32768) = [0, 128] := by
  have h1 : toInt16 1 = 32767 := by
    simp only [toInt16, clampQ]
    norm_num
  have hm1 : toInt16 (-1) = -32768 := by
    simp only [toInt16, clampQ]
    rw [show max (-1 : ℚ) (min 1 (-1)) = -1 from by norm_num]
    rw [if_pos (by norm_num)]
    rw [show ((-1 : ℚ) * 32768) = ((-32768 : ℤ) : ℚ) from by norm_num, Int.ceil_intCast]
  refine ⟨?_, ?_, h1, hm1, ?_, ?_, ?_⟩
  · intro xs sr
    unfold float32ArrayToWavBlob
    rw [show (44 : ℕ) = (wavHeader xs.length sr).length from
      (wavHeader_length xs.length sr).symm]
    rw [List.drop_left]
    rfl
  · intro x
    refine ⟨rfl, ?_, ?_⟩
    · intro hneg
      simp only [toInt16]
      rw [if_pos hneg]
    · intro hpos
      simp only [toInt16]
      rw [if_neg (not_lt.mpr hpos)]
  · show wavHeader 2 48000 ++ dataBytes [1, -1] = _
    rw [show dataBytes [1, -1] = int16bytes (toInt16 1) ++ (int16bytes (toInt16 (-1)) ++ [])
      from rfl]
    rw [h1, hm1, List.append_nil]
  · decide
  · decide

/-- Witness for C2 on a concrete negative sample. -/
theorem C2_witness :
    clampQ (-0.5 : ℚ) < 0 ∧ toInt16 (-0.5 : ℚ) = ⌈clampQ (-0.5 : ℚ) * 32768⌉ :=
  ⟨by norm_num [clampQ],
    (C2_wav_quantization.2.1 (-0.5)).2.1 (by norm_num [clampQ])⟩

/-- C3 counterexample: with the in-range parameters noiseThreshold = 0.005,
reductionStrength = 0.3, highPassStrength = 0.05, preservationThreshold =
0.015 and input [-1, 0.8], the post-filter value at index 1 is 0.81, whose
amplitude exceeds 0.8, yet the limiter does not trigger (it is keyed on the
raw input amplitude 0.8): the output keeps the value 0.81 instead of the
claimed sign * (0.8 + (0.81 - 0.8) * 0.5) = 0.805. -/
theorem C3_counterexample :
    (0.8 : ℚ) < |preAt ⟨0.005, 0.3, 0.05, 0.015⟩ [-1, 0.8] 1|
    ∧ processAudioWithRNNoise ⟨0.005, 0.3, 0.05, 0.015⟩ [-1, 0.8] = [-0.9, 0.81]
    ∧ (processAudioWithRNNoise ⟨0.005, 0.3, 0.05, 0.015⟩ [-1, 0.8]).getD 1 0
        = preAt ⟨0.005, 0.3, 0.05, 0.015⟩ [-1, 0.8] 1
    ∧ preAt ⟨0.005, 0.3, 0.05, 0.015⟩ [-1, 0.8] 1
        ≠ (if preAt ⟨0.005, 0.3, 0.05, 0.015⟩ [-1, 0.8] 1 < 0 then (-1 : ℚ) else 1)
          * (0.8 + (|preAt ⟨0.005, 0.3, 0.05, 0.015⟩ [-1, 0.8] 1| - 0.8) * 0.5) := by
  have hpre : preAt ⟨0.005, 0.3, 0.05, 0.015⟩ [-1, 0.8] 1 = 0.81 := by
    norm_num [preAt, prevAt, gateRNN, hpRNN, abs_of_nonneg]
  rw [hpre]
  refine ⟨by norm_num [abs_of_nonneg], ?_, ?_, by norm_num [abs_of_nonneg]⟩
  · norm_num [processAudioWithRNNoise, processRNNGo, bodyRNN, gateRNN, hpRNN, limitRNN,
      abs_of_nonneg, abs_of_nonpos]
  · rw [show (1 : ℕ) = 0 + 1 from rfl]
    norm_num [processAudioWithRNNoise, processRNNGo, bodyRNN, gateRNN, hpRNN, limitRNN,
      abs_of_nonneg, abs_of_nonpos, List.getD_cons_succ, List.getD_cons_zero]

/-- C3 amended: the soft limiter triggers exactly when the RAW input
amplitude exceeds both preservationThreshold and 0.8, and then replaces
the post-filter working value with sign * (0.8 + (rawAmplitude - 0.8) * 0.5)
where sign is the sign of the post-filter working value and rawAmplitude is
the raw input amplitude; otherwise the output is the post-filter value. -/
theorem C3_amended_limiter :
    ∀ (p : RNNParams) (input : List ℚ) (i : ℕ), i < input.length →
      (processAudioWithRNNoise p input).getD i 0
        = if p.preservationThreshold < |input.getD i 0| ∧ 0.8 < |input.getD i 0| then
            (if preAt p input i < 0 then (-1 : ℚ) else 1)
              * (0.8 + (|input.getD i 0| - 0.8) * 0.5)
          else preAt p input i := by
  intro p input i h
  rw [processAudioWithRNNoise_getD p input i h]
  have hb : bodyRNN p (prevAt input i) (input.getD i 0)
      = limitRNN p |input.getD i 0| (preAt p input i) := rfl
  rw [hb]
  simp only [limitRNN]
  split_ifs <;> first | rfl | tauto

/-- Witness for the amended C3: a full-scale sample is limited to 0.9. -/
theorem C3_witness :
    0 < ([(1 : ℚ)]).length
    ∧ (processAudioWithRNNoise ⟨0.005, 0.3, 0.05, 0.015⟩ [1]).getD 0 0 = 0.9 :=
  ⟨by decide,
    (C3_amended_limiter ⟨0.005, 0.3, 0.05, 0.015⟩ [1] 0 (by decide)).trans
      (by norm_num [preAt, prevAt, gateRNN, hpRNN, abs_of_nonneg])⟩

/-- C4 counterexample: a NaN input sample is not zeroed — it propagates to
the corresponding output sample of the adaptive engine (NaN compares false
against both thresholds and NaN times any factor is NaN), whereas a zeroed
sample would produce the finite output 0. -/
theorem C4_counterexample :
    processFloat32ArrayJs [JsNum.nan] 0.5 = [JsNum.nan]
    ∧ processFloat32ArrayJs [JsNum.fin 0] 0.5 = [JsNum.fin 0]
    ∧ JsNum.nan ≠ JsNum.fin 0 := by
  refine ⟨rfl, ?_, by simp⟩
  norm_num [processFloat32ArrayJs, jabs, jadd, jmul, jdivNat, jgt]

/-- C4 amended: the engine never raises on finite input (both embedded
modes are total, length-preserving functions), but non-finite input is NOT
treated as zero: a NaN sample propagates to the output at every intensity. -/
theorem C4_amended_no_nan_guard :
    (∀ (input : List ℚ) (c : ℚ), (processFloat32Array input c).length = input.length)
    ∧ (∀ (p : RNNParams) (input : List ℚ),
        (processAudioWithRNNoise p input).length = input.length)
    ∧ (∀ c : ℚ, processFloat32ArrayJs [JsNum.nan] c = [JsNum.nan]) := by
  refine ⟨?_, ?_, ?_⟩
  · intro input c
    simp [processFloat32Array]
  · intro p input
    exact processRNNGo_length p input none
  · intro c
    rfl

/-- C10 counterexample: with the in-range parameters noiseThreshold = 0.02,
reductionStrength = 0.3, highPassStrength = 0, preservationThreshold = 0.01,
the sample 0.015 has amplitude inside [preservationThreshold, 0.8] yet is
attenuated to 0.0045 (the first gate branch fires because the amplitude is
still below noiseThreshold). -/
theorem C10_counterexample :
    (⟨0.02, 0.3, 0, 0.01⟩ : RNNParams).highPassStrength = 0
    ∧ (⟨0.02, 0.3, 0, 0.01⟩ : RNNParams).preservationThreshold ≤ |(0.015 : ℚ)|
    ∧ |(0.015 : ℚ)| ≤ 0.8
    ∧ processAudioWithRNNoise ⟨0.02, 0.3, 0, 0.01⟩ [0.015] = [0.0045]
    ∧ (0.0045 : ℚ) ≠ 0.015 := by
  refine ⟨rfl, by norm_num [abs_of_nonneg], by norm_num [abs_of_nonneg], ?_, by norm_num⟩
  norm_num [processAudioWithRNNoise, processRNNGo, bodyRNN, gateRNN, hpRNN, limitRNN,
    abs_of_nonneg]

/-- C10 amended: in explicit mode with highPassStrength = 0 and
noiseThreshold <= preservationThreshold, every input sample whose amplitude
lies in [preservationThreshold, 0.8] is passed through to the output
unchanged, regardless of the remaining parameters and of neighbouring
samples. -/
theorem C10_amended_passthrough :
    ∀ (p : RNNParams) (input : List ℚ) (i : ℕ),
      p.highPassStrength = 0 → p.noiseThreshold ≤ p.preservationThreshold →
      i < input.length →
      p.preservationThreshold ≤ |input.getD i 0| → |input.getD i 0| ≤ 0.8 →
      (processAudioWithRNNoise p input).getD i 0 = input.getD i 0 := by
  intro p input i hh hnp hlen hlo hhi
  rw [processAudioWithRNNoise_getD p input i hlen]
  have hg : gateRNN p (input.getD i 0) = input.getD i 0 := by
    simp only [gateRNN]
    rw [if_neg (not_lt.mpr (hnp.trans hlo)), if_neg (not_lt.mpr hlo)]
  have hhp : hpRNN p (prevAt input i) (input.getD i 0) = input.getD i 0 := by
    cases hpv : prevAt input i with
    | none => simp only [hpRNN]
    | some q =>
        simp only [hpRNN]
        rw [hh]
        norm_num
  unfold bodyRNN
  rw [hg, hhp]
  unfold limitRNN
  by_cases h1 : p.preservationThreshold < |input.getD i 0|
  · rw [if_pos h1, if_neg (not_lt.mpr hhi)]
  · rw [if_neg h1]

/-- Witness for the amended C10: a mid-amplitude sample passes through. -/
theorem C10_witness :
    (⟨0.005, 0.3, 0, 0.015⟩ : RNNParams).highPassStrength = 0
    ∧ (0.005 : ℚ) ≤ 0.015
    ∧ 0 < ([(0.5 : ℚ)]).length
    ∧ (0.015 : ℚ) ≤ |(0.5 : ℚ)|
    ∧ |(0.5 : ℚ)| ≤ 0.8
    ∧ (processAudioWithRNNoise ⟨0.005, 0.3, 0, 0.015⟩ [0.5]).getD 0 0
        = ([(0.5 : ℚ)]).getD 0 0 :=
  ⟨rfl, by norm_num, by decide, by norm_num [abs_of_nonneg], by norm_num [abs_of_nonneg],
    C10_amended_passthrough ⟨0.005, 0.3, 0, 0.015⟩ [0.5] 0 rfl (by norm_num) (by decide)
      (by norm_num [abs_of_nonneg]) (by norm_num [abs_of_nonneg])⟩

end NoiseFilter
